import Mathlib

/-!
Verification development for the `ivcnotes` core: a shallow embedding of
the note data model (`note.rs`), the Poseidon-based commitment layer
(`poseidon.rs`), the transaction builders (`tx.rs`), the circuit's public
input plumbing (`circuit/inputs.rs`), the value constraints of the split
branch (`circuit/cs.rs`), and the wallet orchestration
(`wallet.rs`: `issue`, `split`, `verify_incoming`).

Machine integers (`u64` values, `u32` steps) are embedded as `Nat`;
field elements of the SNARK scalar field are embedded as an abstract
commutative ring `F` (instantiated with `ZMod p` where concrete
arithmetic is needed).  The Poseidon CRH of each domain is an
uninterpreted function `List F → F`, one per configuration slot, exactly
as `PoseidonConfigs` holds one `PoseidonConfig` per domain.  Fallible
Rust code is embedded as `Except`; a Rust panic (an `assert!`/`unwrap()`
abort) is a distinguished terminal outcome, not an error value.
-/

/-- `NoteOutIndex` from `note.rs`: `Issue`, `Out0`, `Out1`, encoded into
the field as 0, 1, 2 by `NoteOutIndex::inner` (via `From<&NoteOutIndex> for u8`). -/
inductive NoteOutIndex where
  | Issue : NoteOutIndex
  | Out0 : NoteOutIndex
  | Out1 : NoteOutIndex
deriving DecidableEq, Repr

/-- Field encoding of an output index, `NoteOutIndex::inner` in `note.rs`. -/
def NoteOutIndex.inner (F : Type) [CommRing F] : NoteOutIndex → F
  | .Issue => 0
  | .Out0 => 1
  | .Out1 => 2

/-- `Note` from `note.rs`: `value` is a `u64`, `step` a `u32`, both embedded
as `Nat`; all hash-typed fields are field elements. -/
structure Note (F : Type) where
  asset_hash : F
  owner : F
  value : Nat
  step : Nat
  parent_note : F
  out_index : NoteOutIndex
  blind : F
deriving DecidableEq, Repr

/-- `Note::new` from `note.rs` (argument order as in the source). -/
def Note.new {F : Type} (asset_hash : F) (owner : F) (value : Nat) (step : Nat)
    (out_index : NoteOutIndex) (parent_note : F) (blind : F) : Note F :=
  { asset_hash := asset_hash, owner := owner, value := value, step := step,
    parent_note := parent_note, out_index := out_index, blind := blind }

/-- `Note::to_crh` from `poseidon.rs`: the canonical six field elements
`[asset_hash, owner, value, step, parent, out_index]`. -/
def Note.to_crh {F : Type} [CommRing F] (n : Note F) : List F :=
  [n.asset_hash, n.owner, (n.value : F), (n.step : F), n.parent_note,
    NoteOutIndex.inner F n.out_index]

/-- `PoseidonConfigs` from `poseidon.rs`: one Poseidon CRH per domain,
each embedded as an uninterpreted function on field-element lists. -/
structure PoseidonConfigs (F : Type) where
  idCfg : List F → F
  noteCfg : List F → F
  blindCfg : List F → F
  stateCfg : List F → F
  nullifierCfg : List F → F
  txCfg : List F → F
  eddsaCfg : List F → F

/-- `PoseidonConfigs::id_commitment`: `Poseidon_id(nullifier_key, pk.x, pk.y)`. -/
def PoseidonConfigs.id_commitment {F : Type} (h : PoseidonConfigs F)
    (nullifier_key : F) (pk : F × F) : F :=
  h.idCfg [nullifier_key, pk.1, pk.2]

/-- `PoseidonConfigs::blind_note`: `Poseidon_blind(note_hash, blind)`. -/
def PoseidonConfigs.blind_note {F : Type} (h : PoseidonConfigs F)
    (note_hash : F) (blind : F) : F :=
  h.blindCfg [note_hash, blind]

/-- `PoseidonConfigs::note`: returns the note hash and the blinded note hash. -/
def PoseidonConfigs.noteHashes {F : Type} [CommRing F] (h : PoseidonConfigs F)
    (n : Note F) : F × F :=
  let note_hash := h.noteCfg n.to_crh
  (note_hash, h.blind_note note_hash n.blind)

/-- `PoseidonConfigs::state`: `Poseidon_state(out0, out1)`. -/
def PoseidonConfigs.state {F : Type} (h : PoseidonConfigs F) (out0 out1 : F) : F :=
  h.stateCfg [out0, out1]

/-- `PoseidonConfigs::nullifier`: note that the source evaluates the CRH with
`self.state` (the state-domain configuration), not `self.nullifier`
(`poseidon.rs` line 199); the embedding keeps that choice. -/
def PoseidonConfigs.nullifier {F : Type} (h : PoseidonConfigs F)
    (note_hash : F) (key : F) : F :=
  h.stateCfg [note_hash, key]

/-- `PoseidonConfigs::sighash`: `Poseidon_tx(input, out0, out1)`. -/
def PoseidonConfigs.sighash {F : Type} (h : PoseidonConfigs F)
    (input out0 out1 : F) : F :=
  h.txCfg [input, out0, out1]

/-- `Terms` from `asset.rs`: the single `IOU { maturity, unit }` variant. -/
structure Terms where
  maturity : Nat
  unit : Nat
deriving DecidableEq, Repr

/-- `Asset` from `asset.rs`: issuer address and terms.  Its SHA-512 based
hash is kept abstract (an `Env` field), since SHA-512 is an external
primitive never proven in-circuit. -/
structure Asset (F : Type) where
  issuer : F
  terms : Terms
deriving DecidableEq, Repr

/-- `IVCStep` from `note.rs`: a proof plus `(state, nullifier, sender)`. -/
structure IVCStep (F P : Type) where
  proof : P
  state : F
  nullifier : F
  sender : F
deriving DecidableEq, Repr

/-- `NoteHistory` from `note.rs`. -/
structure NoteHistory (F P : Type) where
  asset : Asset F
  steps : List (IVCStep F P)
  current_note : Note F
  sibling : F
deriving DecidableEq, Repr

/-- `NoteHistory::state` from `note.rs`.  The `Issue` arm executes
`assert_eq!(self.sibling, BlindNoteHash::default())`; a failing assert is a
Rust panic, embedded as `none`. -/
def NoteHistory.state {F P : Type} [CommRing F] [DecidableEq F]
    (h : PoseidonConfigs F) (nh : NoteHistory F P) : Option F :=
  let blind_note_hash := (h.noteHashes nh.current_note).2
  match nh.current_note.out_index with
  | .Out0 => some (h.state blind_note_hash nh.sibling)
  | .Out1 => some (h.state nh.sibling blind_note_hash)
  | .Issue =>
      if nh.sibling = 0 then some (h.state 0 blind_note_hash) else none

/-- The `crate::Error` constructors used by the core (`lib.rs` plus the
`Error::With` constructor that `wallet.rs` and `service.rs` build). -/
inductive Error where
  | Custom : String → Error
  | Data : String → Error
  | External : String → Error
  | Verify : String → Error
  | Service : String → Error
  | With : String → Error
deriving DecidableEq, Repr

deriving instance DecidableEq for Except

/-- Outcome of running a piece of wallet code that owns state of type `σ`:
either a Rust panic (`abort`), or a returned `Result` together with the
state of the wallet after the call (Rust methods mutate `&mut self`, so a
returned `Err` can still leave a mutated state behind). -/
inductive Outcome (σ α : Type) where
  | abort : Outcome σ α
  | cont : Except Error α → σ → Outcome σ α
deriving DecidableEq, Repr

/-- `PublicInput` from `circuit/inputs.rs`; `step` is a `u32`. -/
structure PublicInput (F : Type) where
  asset_hash : F
  sender : F
  state_in : F
  state_out : F
  step : Nat
  nullifier : F
deriving DecidableEq, Repr

/-- `PublicInput::new` from `circuit/inputs.rs` (argument order as in the
source: `asset_hash, sender, state_in, state_out, step, nullifier`). -/
def PublicInput.new {F : Type} (asset_hash sender state_in state_out : F)
    (step : Nat) (nullifier : F) : PublicInput F :=
  { asset_hash := asset_hash, sender := sender, state_in := state_in,
    state_out := state_out, step := step, nullifier := nullifier }

/-- `PublicInput::to_verifier` from `circuit/inputs.rs`: the vector of six
field elements passed to `SNARK::verify`, in the order the source pushes
them: `asset_hash, sender, state_in, state_out, nullifier, step`. -/
def PublicInput.to_verifier {F : Type} [CommRing F] (pi : PublicInput F) : List F :=
  [pi.asset_hash, pi.sender, pi.state_in, pi.state_out, pi.nullifier, (pi.step : F)]

/-- The order in which `PublicInputVar::new` (`circuit/inputs.rs`) allocates
the public input variables of the constraint system: one list entry per
`input_in` call, in source order (`asset_hash, sender, state_in, state_out,
nullifier, step`). -/
def PublicInput.allocationOrder {F : Type} [CommRing F] (pi : PublicInput F) : List F :=
  [pi.asset_hash, pi.sender, pi.state_in, pi.state_out, pi.nullifier, (pi.step : F)]

/-- The canonical public-input order as the specification words it
(spec section 4.4: `asset_hash, sender, state_in, state_out, step, nullifier`).
This definition follows the spec's words, to be compared with
`PublicInput.to_verifier`, which follows the source. -/
def PublicInput.specOrder {F : Type} [CommRing F] (pi : PublicInput F) : List F :=
  [pi.asset_hash, pi.sender, pi.state_in, pi.state_out, (pi.step : F), pi.nullifier]

/-- `AuxInputs` from `circuit/inputs.rs`; the EdDSA public key is a curve
point embedded as its coordinate pair, the signature is abstract. -/
structure AuxInputs (F S : Type) where
  receiver : F
  public_key : F × F
  signature : S
  nullifier_key : F
  parent : F
  input_index : NoteOutIndex
  value_in : Nat
  value_out : Nat
  sibling : F
  blind_in : F
  blind_out_0 : F
  blind_out_1 : F
deriving DecidableEq, Repr

/-- `Contact` from `wallet.rs`. -/
structure Contact (F : Type) where
  address : F
  username : String
  public_key : F × F
deriving DecidableEq, Repr

/-- `IssueTx` from `tx.rs`. -/
structure IssueTx (F : Type) where
  note : Note F
  issuer : F
deriving DecidableEq, Repr

/-- `IssueTx::new` from `tx.rs`: asserts `out_index == Out1`, `step == 0`
and `parent_note == 0`; a failing assert is a panic, embedded as `none`. -/
def IssueTx.new {F : Type} [CommRing F] [DecidableEq F]
    (issuer : F) (note : Note F) : Option (IssueTx F) :=
  if note.out_index = NoteOutIndex.Out1 ∧ note.step = 0 ∧ note.parent_note = 0 then
    some { note := note, issuer := issuer }
  else
    none

/-- `SplitTx` from `tx.rs` (its `new` checks nothing). -/
structure SplitTx (F : Type) where
  note_in : Note F
  note_out_0 : Note F
  note_out_1 : Note F
deriving DecidableEq, Repr

/-- `PoseidonConfigs::sighash_split_tx` from `poseidon.rs`. -/
def PoseidonConfigs.sighash_split_tx {F : Type} [CommRing F]
    (h : PoseidonConfigs F) (tx : SplitTx F) : F :=
  h.sighash (h.noteHashes tx.note_in).1 (h.noteHashes tx.note_out_0).1
    (h.noteHashes tx.note_out_1).1

/-- `PoseidonConfigs::state_out_from_issue_tx` from `poseidon.rs`. -/
def PoseidonConfigs.state_out_from_issue_tx {F : Type} [CommRing F]
    (h : PoseidonConfigs F) (tx : IssueTx F) : F :=
  h.state 0 (h.noteHashes tx.note).2

/-- The wallet's cryptographic and service environment: the Poseidon
configurations, the (external) SHA-512-based asset hash, the SNARK
prover/verifier wrappers of `circuit/mod.rs`, the signer and secrets of
`Auth` (`id.rs`), and the out-of-band note delivery of
`Wallet::send_note` (`service.rs`).  `verify` and `prove` return the
SNARK backend's `Result`; `circuit/mod.rs` maps backend errors into
`Error::Data` with a fixed message prefix. -/
structure Env (F P S : Type) where
  h : PoseidonConfigs F
  assetHash : Asset F → F
  verify : P → PublicInput F → Except String Bool
  prove : PublicInput F → AuxInputs F S → Except String P
  sign : F → S
  send : NoteHistory F P → Except Error Unit
  nullifier_key : F
  address : F
  public_key : F × F

/-- The body of the `for (i, step)` loop of `Wallet::verify_incoming`
(`wallet.rs`), as structural recursion over the remaining steps; `i` is
the index of the head of the remaining list and `state_in` the running
input state.  Within one iteration the source first builds the public
input, then (only at the last index) recomputes the current state from
`(current_note, sibling)` — which can panic, see `NoteHistory.state` —
and compares it with the step's `state_out`, and then calls
`verify_proof` with `.map_err(..)?`: only the `Err` case of the SNARK
backend is propagated, the verified `Ok(bool)` value is dropped by the
source.  `none` models a panic. -/
def verifySteps {F P S : Type} [CommRing F] [DecidableEq F] (env : Env F P S)
    (nh : NoteHistory F P) (asset_hash : F) :
    List (IVCStep F P) → Nat → F → Option (Except Error Unit)
  | [], _, _ => some (Except.ok ())
  | s :: rest, i, state_in =>
    let public_input := PublicInput.new asset_hash s.sender state_in s.state i s.nullifier
    let state_check : Option (Except Error Unit) :=
      if i = nh.steps.length - 1 then
        match nh.state env.h with
        | none => none
        | some st =>
            if st = s.state then some (Except.ok ())
            else some (Except.error (Error.With "bad current state"))
      else some (Except.ok ())
    match state_check with
    | none => none
    | some (Except.error e) => some (Except.error e)
    | some (Except.ok _) =>
      match env.verify s.proof public_input with
      | Except.error _ => some (Except.error (Error.With "verification failed"))
      | Except.ok _verified => verifySteps env nh asset_hash rest (i + 1) s.state

/-- `Wallet::verify_incoming` from `wallet.rs`: dedup by `current_note`
equality (silent success), otherwise run the step loop starting from
`state_in = asset_hash` and push the history to `spendables` on success. -/
def Wallet.verify_incoming {F P S : Type} [CommRing F] [DecidableEq F] [DecidableEq P]
    (env : Env F P S) (spendables : List (NoteHistory F P))
    (note_history : NoteHistory F P) : Outcome (List (NoteHistory F P)) Unit :=
  if spendables.any (fun nh => nh.current_note == note_history.current_note) then
    Outcome.cont (Except.ok ()) spendables
  else
    let asset_hash := env.assetHash note_history.asset
    match verifySteps env note_history asset_hash note_history.steps 0 asset_hash with
    | none => Outcome.abort
    | some (Except.error e) => Outcome.cont (Except.error e) spendables
    | some (Except.ok _) =>
        Outcome.cont (Except.ok ()) (spendables ++ [note_history])

/-- Everything a successful `Wallet::split` computed: the public input and
auxiliary input handed to the prover, the two output notes, the sealed
transaction's nullifier, and the history sent to the receiver. -/
structure SplitInfo (F P S : Type) where
  public_input : PublicInput F
  aux : AuxInputs F S
  note_out_0 : Note F
  note_out_1 : Note F
  sealed_nullifier : F
  sent : NoteHistory F P
deriving DecidableEq, Repr

/-- `Wallet::split` from `wallet.rs`.  The receiver lookup
(`find_contact_by_username`, a service call) and the two `Blind::rand(rng)`
draws are passed in as `lookup`, `blind_0`, `blind_1`.  The returned state
is the wallet's `spendables` after the call (the source mutates the
spendable in place before `send_note`, so a send failure leaves the
mutated state behind).  Faithful to the source: `checked_sub` for
insufficient funds; output notes built with `note_in.parent_note` as
parent; the prover's `PublicInput` built with `step = 0` and
`nullifier = Default::default()`. -/
def Wallet.split {F P S : Type} [CommRing F] [DecidableEq F] (env : Env F P S)
    (spendables : List (NoteHistory F P)) (spendable_index : Nat) (value : Nat)
    (lookup : Except Error (Contact F)) (blind_0 blind_1 : F) :
    Outcome (List (NoteHistory F P)) (SplitInfo F P S) :=
  match lookup with
  | Except.error e => Outcome.cont (Except.error e) spendables
  | Except.ok receiver =>
    let sender := env.address
    match spendables.get? spendable_index with
    | none => Outcome.cont (Except.error (Error.With "bad spendable index")) spendables
    | some note_history =>
      let note_in := note_history.current_note
      let step := note_history.steps.length
      let asset_hash := env.assetHash note_history.asset
      if value ≤ note_in.value then
        let value_out_0 := note_in.value - value
        let value_out_1 := value
        let note_out_0 :=
          Note.new asset_hash sender value_out_0 step NoteOutIndex.Out0 note_in.parent_note blind_0
        let note_out_1 :=
          Note.new asset_hash receiver.address value_out_1 step NoteOutIndex.Out1 note_in.parent_note blind_1
        let tx : SplitTx F := ⟨note_in, note_out_0, note_out_1⟩
        let signature := env.sign (env.h.sighash_split_tx tx)
        let sealed_nullifier := env.h.nullifier (env.h.noteHashes note_in).1 env.nullifier_key
        match NoteHistory.state env.h note_history with
        | none => Outcome.abort
        | some state_in =>
          let blind_note_hash_0 := (env.h.noteHashes note_out_0).2
          let blind_note_hash_1 := (env.h.noteHashes note_out_1).2
          let state_out := env.h.state blind_note_hash_0 blind_note_hash_1
          let public_inputs := PublicInput.new asset_hash sender state_in state_out 0 0
          let aux : AuxInputs F S :=
            ⟨receiver.address, env.public_key, signature, env.nullifier_key,
              note_in.parent_note, note_in.out_index, note_in.value, value_out_1,
              note_history.sibling, note_in.blind, blind_0, blind_1⟩
          match env.prove public_inputs aux with
          | Except.error e =>
              Outcome.cont
                (Except.error (Error.Data ("proof generation failed: " ++ e))) spendables
          | Except.ok proof =>
            let new_step : IVCStep F P := ⟨proof, state_out, sealed_nullifier, sender⟩
            let note_history_0 : NoteHistory F P :=
              { note_history with
                  steps := note_history.steps ++ [new_step],
                  current_note := note_out_0,
                  sibling := blind_note_hash_1 }
            let note_history_1 : NoteHistory F P :=
              { note_history_0 with
                  current_note := note_out_1, sibling := blind_note_hash_0 }
            let spendables1 := spendables.set spendable_index note_history_0
            match env.send note_history_1 with
            | Except.error e => Outcome.cont (Except.error e) spendables1
            | Except.ok _ =>
                Outcome.cont
                  (Except.ok
                    ⟨public_inputs, aux, note_out_0, note_out_1, sealed_nullifier,
                      note_history_1⟩)
                  spendables1
      else
        Outcome.cont (Except.error (Error.With "insufficient funds")) spendables

/-- `Wallet::issue` from `wallet.rs`.  The receiver lookup and the random
blind are passed in; the issue note is built with
`NoteOutIndex::Issue` (as the source does) and handed to `IssueTx::new`,
whose `assert_eq!(note.out_index, NoteOutIndex::Out1)` panics. -/
def Wallet.issue {F P S : Type} [CommRing F] [DecidableEq F] (env : Env F P S)
    (asset : Asset F) (value : Nat) (lookup : Except Error (Contact F))
    (blind : F) : Outcome Unit Unit :=
  match lookup with
  | Except.error e => Outcome.cont (Except.error e) ()
  | Except.ok receiver =>
    let asset_hash := env.assetHash asset
    let note := Note.new asset_hash receiver.address value 0 NoteOutIndex.Issue 0 blind
    match IssueTx.new env.address note with
    | none => Outcome.abort
    | some tx =>
      let note_hash := (env.h.noteHashes tx.note).1
      let sighash := env.h.sighash 0 0 note_hash
      let signature := env.sign sighash
      let state_in := asset_hash
      let state_out := env.h.state_out_from_issue_tx tx
      let public_inputs := PublicInput.new asset_hash env.address state_in state_out 0 0
      let aux : AuxInputs F S :=
        ⟨receiver.address, env.public_key, signature, env.nullifier_key, 0,
          NoteOutIndex.Issue, 0, value, 0, 0, 0, blind⟩
      match env.prove public_inputs aux with
      | Except.error e =>
          Outcome.cont (Except.error (Error.Data ("proof generation failed: " ++ e))) ()
      | Except.ok proof =>
        let step : IVCStep F P := ⟨proof, state_out, 0, env.address⟩
        let note_history : NoteHistory F P := ⟨asset, [step], note, 0⟩
        match env.send note_history with
        | Except.error e => Outcome.cont (Except.error e) ()
        | Except.ok _ => Outcome.cont (Except.ok ()) ()

/-- `CipherText::decrypt` from `cipher.rs`: the inner `decrypt` calls
`decrypt_padded_vec_mut::<Pkcs7>(msg).unwrap()`, so a padding failure of
the external AES-CBC primitive (modelled as `decryptPadded` returning
`none`) is a panic, not an error; only the subsequent `bincode`
deserialization failure is surfaced as `Error::Data`. -/
def CipherText.decrypt {α : Type} (decryptPadded : List Nat → Option (List Nat))
    (deserialize : List Nat → Option α) (data : List Nat) : Outcome Unit α :=
  match decryptPadded data with
  | none => Outcome.abort
  | some plain =>
    match deserialize plain with
    | none => Outcome.cont (Except.error (Error.Data "decryption failed: deserialize")) ()
    | some x => Outcome.cont (Except.ok x) ()

/-- The BN254/Grumpkin scalar field modulus: the circuit of
`circuit/mod.rs::concrete` instantiates `IVC` with `ark_bn254::Fr`. -/
def bn254r : Nat :=
  21888242871839275222246405745257275088548364400416034343698204186575808495617

/-- The SNARK scalar field of the concrete instantiation. -/
abbrev Fbn := ZMod bn254r

instance : NeZero bn254r := ⟨by norm_num [bn254r]⟩

/-- `(p - 1) / 2` for the BN254 scalar field. -/
def halfBn : Nat := (bn254r - 1) / 2

/-- Field-level semantics of arkworks' `FpVar::enforce_cmp(other,
Ordering::Less, true)` as used in `circuit/cs.rs`: it enforces
`self ≤ other` on the integer representatives and, being the checked
variant, additionally verifies that both operands lie in `[0, (p-1)/2]`. -/
def enforceCmpLe (a b : Fbn) : Prop :=
  a.val ≤ b.val ∧ a.val ≤ halfBn ∧ b.val ≤ halfBn

instance (a b : Fbn) : Decidable (enforceCmpLe a b) := by
  unfold enforceCmpLe; infer_instance

/-- The value constraints of the split branch, `circuit/cs.rs` lines
185–192, with the branch selector `is_split_tx` active:
`value_out_0 = value_in - value_out_1` (field subtraction after the
`CondSelectGadget`), `value_out_0.enforce_cmp(value_in, Less, true)` and
`value_out_1.enforce_cmp(u64::MAX, Less, true)`. -/
def splitValueConstraints (value_in value_out_0 value_out_1 : Fbn) : Prop :=
  value_out_0 = value_in - value_out_1
    ∧ enforceCmpLe value_out_0 value_in
    ∧ enforceCmpLe value_out_1 ((2 ^ 64 - 1 : Nat) : Fbn)

instance (a b c : Fbn) : Decidable (splitValueConstraints a b c) := by
  unfold splitValueConstraints; infer_instance

/-- The value of a successful wallet call, if any. -/
def Outcome.okValue {σ α : Type} : Outcome σ α → Option α
  | Outcome.cont (Except.ok a) _ => some a
  | _ => none

/-- The wallet state after a call that returned (no panic). -/
def Outcome.finalState {σ α : Type} : Outcome σ α → Option σ
  | Outcome.cont _ s => some s
  | Outcome.abort => none

/-- A concrete hash for one Poseidon domain of the small test
instantiation: an (uninterpreted-in-the-proofs) fold with a per-domain
initial constant. -/
def mkCfg (c : ZMod 101) : List (ZMod 101) → ZMod 101 :=
  fun l => l.foldl (fun a x => 5 * a + x) c

/-- Concrete Poseidon configurations over the small test field. -/
def cfgC : PoseidonConfigs (ZMod 101) :=
  ⟨mkCfg 1, mkCfg 2, mkCfg 3, mkCfg 4, mkCfg 5, mkCfg 6, mkCfg 7⟩

/-- Concrete wallet environment over the small test field: the prover,
signer and service always succeed, and the SNARK verifier returns
`Ok(false)` — a well-formed run in which every proof fails verification. -/
def envC : Env (ZMod 101) Unit Unit where
  h := cfgC
  assetHash := fun a => 7 * a.issuer + (a.terms.maturity : ZMod 101)
  verify := fun _ _ => Except.ok false
  prove := fun _ _ => Except.ok ()
  sign := fun _ => ()
  send := fun _ => Except.ok ()
  nullifier_key := 11
  address := 9
  public_key := (3, 4)

/-- Concrete asset. -/
def assetC : Asset (ZMod 101) := ⟨2, ⟨365, 1⟩⟩

/-- Concrete unspent note of the test history (an `Out0` change note). -/
def noteC : Note (ZMod 101) :=
  Note.new (envC.assetHash assetC) 9 100 0 NoteOutIndex.Out0 0 17

/-- The state recomputed from `(noteC, sibling = 5)` per the `Out0` rule. -/
def stC : ZMod 101 := cfgC.state (cfgC.noteHashes noteC).2 5

/-- Concrete one-step history whose stored last state matches the
recomputed one, so only proof verification can reject it. -/
def nhC : NoteHistory (ZMod 101) Unit :=
  ⟨assetC, [⟨(), stC, 0, 2⟩], noteC, 5⟩

/-- Concrete receiver contact. -/
def rC : Contact (ZMod 101) := ⟨8, "bob", (5, 6)⟩

/-- A concrete `Wallet::split` run: spendable 0 of `[nhC]`, value 40,
receiver `rC`, blinds 20 and 21. -/
def splitResC : Outcome (List (NoteHistory (ZMod 101) Unit)) (SplitInfo (ZMod 101) Unit Unit) :=
  Wallet.split envC [nhC] 0 40 (Except.ok rC) 20 21

/-- The `SplitInfo` of the successful concrete split run. -/
def splitInfoC : SplitInfo (ZMod 101) Unit Unit :=
  match splitResC with
  | Outcome.cont (Except.ok info) _ => info
  | _ =>
      ⟨⟨0, 0, 0, 0, 0, 0⟩,
        ⟨0, (0, 0), (), 0, 0, NoteOutIndex.Issue, 0, 0, 0, 0, 0, 0⟩,
        noteC, noteC, 0, nhC⟩

/-- The spendables after the successful concrete split run. -/
def splitStateC : List (NoteHistory (ZMod 101) Unit) :=
  match splitResC with
  | Outcome.cont _ s => s
  | _ => []

/-- Concrete adversarial incoming history: `current_note.out_index` is
`Issue` but `sibling = 3 ≠ 0`, the shape that makes `NoteHistory::state`
hit its `assert_eq!`. -/
def nhIssueC : NoteHistory (ZMod 101) Unit :=
  ⟨assetC, [⟨(), 0, 0, 2⟩],
    Note.new (envC.assetHash assetC) 9 100 0 NoteOutIndex.Issue 0 17, 3⟩

/-- Concrete public input with `step = 5` and `nullifier = 6`, to compare
the source's serialization order with the spec's canonical order. -/
def piC : PublicInput (ZMod 101) := ⟨1, 2, 3, 4, 5, 6⟩

set_option maxRecDepth 8000

/-- C9 (counterexample): the six field elements `PublicInput::to_verifier`
passes to the SNARK verifier are NOT in the order the spec calls
canonical (`asset_hash, sender, state_in, state_out, step, nullifier`):
at the concrete input `piC` (step 5, nullifier 6) the source order puts
the nullifier at index 4 and the step last. -/
theorem to_verifier_differs_from_spec_order : piC.to_verifier ≠ piC.specOrder := by
  decide

/-- C9 (amended): the sequence of six field elements presented to the
SNARK verifier and the allocation order of the public input variables in
the circuit agree, and both are
`asset_hash, sender, state_in, state_out, nullifier, step`. -/
theorem to_verifier_matches_allocation_order {F : Type} [CommRing F]
    (pi : PublicInput F) :
    pi.to_verifier = pi.allocationOrder
    ∧ pi.to_verifier =
        [pi.asset_hash, pi.sender, pi.state_in, pi.state_out, pi.nullifier,
          (pi.step : F)] :=
  ⟨rfl, rfl⟩

/-- C4 (code bug): every `Wallet::issue` call that gets past the receiver
lookup aborts, because the wallet builds the issue note with
`NoteOutIndex::Issue` while `IssueTx::new` asserts
`note.out_index == NoteOutIndex::Out1`. -/
theorem issue_always_aborts {F P S : Type} [CommRing F] [DecidableEq F]
    (env : Env F P S) (asset : Asset F) (value : Nat) (r : Contact F)
    (blind : F) :
    Wallet.issue env asset value (Except.ok r) blind = Outcome.abort := by
  simp [Wallet.issue, IssueTx.new, Note.new]

/-- C5 (amended): any witness satisfying the split branch's value
constraints has `value_out_0 + value_out_1 = value_in` over the integers,
and `value_out_1` fits in 64 bits; `value_in` and `value_out_0` are only
bounded by `(p-1)/2`. -/
theorem splitValueConstraints_zero_sum (value_in value_out_0 value_out_1 : Fbn)
    (h : splitValueConstraints value_in value_out_0 value_out_1) :
    value_out_0.val + value_out_1.val = value_in.val
    ∧ value_out_1.val < 2 ^ 64 := by
  obtain ⟨heq, ⟨h01, -, -⟩, ⟨h1m, -, -⟩⟩ := h
  have hv1 : value_out_1 = value_in - value_out_0 := by rw [heq]; ring
  have hsub : (value_in - value_out_0).val = value_in.val - value_out_0.val :=
    ZMod.val_sub h01
  have hmax : ((2 ^ 64 - 1 : Nat) : Fbn).val = 2 ^ 64 - 1 := by decide
  constructor
  · rw [hv1, hsub]; omega
  · rw [hmax] at h1m; omega

/-- Witness for the amended C5 theorem at `value_in = 5`,
`value_out_0 = 3`, `value_out_1 = 2`. -/
theorem splitValueConstraints_zero_sum_witness :
    splitValueConstraints 5 3 2
    ∧ ((3 : Fbn).val + (2 : Fbn).val = (5 : Fbn).val ∧ (2 : Fbn).val < 2 ^ 64) :=
  ⟨by decide, splitValueConstraints_zero_sum 5 3 2 (by decide)⟩

/-- C5 (counterexample): the split branch's range checks accept a witness
whose `value_in` (= 2^100) does not fit in 64 bits, refuting "all three
fit in 64 bits": only `value_out_1` is compared against `u64::MAX`;
`value_in` and `value_out_0` are merely bounded by `(p-1)/2`. -/
theorem splitValueConstraints_allow_wide_value_in :
    splitValueConstraints (1267650600228229401496703205376 : Fbn)
        (1267650600228229401496703205376 : Fbn) 0
    ∧ ¬ ((1267650600228229401496703205376 : Fbn).val < 2 ^ 64) := by
  constructor
  · refine ⟨by ring, ?_, ?_⟩ <;> decide
  · decide

/-- C1 (code bug): `Wallet::verify_incoming` accepts (and adds to the
spendables) a history whose only step's proof the SNARK verifier rejects:
the environment's verifier returns `Ok(false)` on the recomputed public
input of step 0, yet the history `nhC` is accepted, because the source
drops the boolean returned by `verify_proof` (only its `Err` case is
propagated by `.map_err(..)?`). -/
theorem verify_incoming_accepts_unverified_proof :
    envC.verify ()
        (PublicInput.new (envC.assetHash assetC) 2 (envC.assetHash assetC) stC 0 0)
      = Except.ok false
    ∧ Wallet.verify_incoming envC [] nhC = Outcome.cont (Except.ok ()) [nhC] := by
  decide

/-- C2 (code bug): the concrete split run `splitResC` succeeds on a
spendable with 1 prior step (so the new step's chain position is 1), yet
the `PublicInput` handed to the prover carries `step = 0` and
`nullifier = 0`, while the sealed transaction's nullifier
`Poseidon(note_in_hash, nullifier_key)` is nonzero. -/
theorem split_publishes_step_zero_and_empty_nullifier :
    (splitResC.okValue.map fun info => info.public_input.step) = some 0
    ∧ (splitResC.okValue.map fun info => info.public_input.nullifier) = some 0
    ∧ (splitResC.okValue.map fun info => info.sealed_nullifier)
        = some (envC.h.nullifier (envC.h.noteHashes nhC.current_note).1 envC.nullifier_key)
    ∧ envC.h.nullifier (envC.h.noteHashes nhC.current_note).1 envC.nullifier_key ≠ 0
    ∧ nhC.steps.length = 1 := by
  decide

/-- C3 (code bug): in the concrete split run `splitResC` both output
notes carry `parent_note` equal to the INPUT note's own parent (here 0),
which differs from the blinded hash of the spent input note; the `step`
field does equal the number of prior steps. -/
theorem split_outputs_parent_is_input_parent :
    (splitResC.okValue.map fun info => info.note_out_0.parent_note)
        = some nhC.current_note.parent_note
    ∧ (splitResC.okValue.map fun info => info.note_out_1.parent_note)
        = some nhC.current_note.parent_note
    ∧ nhC.current_note.parent_note ≠ (envC.h.noteHashes nhC.current_note).2
    ∧ (splitResC.okValue.map fun info => info.note_out_0.step)
        = some nhC.steps.length := by
  decide

/-- C6 (code bug): two aborts on adversarial input.  First, the envelope
decryption path panics (the source unwraps `decrypt_padded_vec_mut`)
whenever the AES-CBC/PKCS7 primitive reports bad padding — a corrupted
or wrongly keyed envelope — instead of returning an error.  Second,
`Wallet::verify_incoming` on a non-duplicate single-step history whose
`current_note.out_index` is `Issue` with a nonzero `sibling` panics in
`NoteHistory::state`'s `assert_eq!` instead of rejecting the history. -/
theorem decrypt_and_state_abort_on_adversarial_input :
    (∀ (decryptPadded : List Nat → Option (List Nat))
        (deserialize : List Nat → Option Nat) (data : List Nat),
        decryptPadded data = none →
        CipherText.decrypt decryptPadded deserialize data = Outcome.abort)
    ∧ (∀ (F P S : Type) [CommRing F] [DecidableEq F] [DecidableEq P]
        (env : Env F P S) (s : List (NoteHistory F P)) (nh : NoteHistory F P)
        (st : IVCStep F P),
        nh.steps = [st] →
        nh.current_note.out_index = NoteOutIndex.Issue →
        nh.sibling ≠ 0 →
        s.any (fun x => x.current_note == nh.current_note) = false →
        Wallet.verify_incoming env s nh = Outcome.abort) := by
  constructor
  · intro dp de data h
    simp [CipherText.decrypt, h]
  · intro F P S _ _ _ env s nh st hsteps hidx hsib hany
    have hstate : NoteHistory.state env.h nh = none := by
      simp [NoteHistory.state, hidx, hsib]
    simp [Wallet.verify_incoming, hany, hsteps, verifySteps, hstate]

/-- Witness for the C6 theorem: a concrete bad-padding envelope and the
concrete Issue-with-nonzero-sibling history `nhIssueC`. -/
theorem decrypt_and_state_abort_witness :
    CipherText.decrypt (fun _ => none) (fun _ => some 0) [] = Outcome.abort
    ∧ Wallet.verify_incoming envC [] nhIssueC = Outcome.abort :=
  ⟨decrypt_and_state_abort_on_adversarial_input.1 (fun _ => none)
      (fun _ => some 0) [] rfl,
   decrypt_and_state_abort_on_adversarial_input.2 (ZMod 101) Unit Unit envC []
      nhIssueC ⟨(), 0, 0, 2⟩ rfl rfl (by decide) rfl⟩

/-- C7: `Wallet::split` (past a successful receiver lookup and a valid
spendable index, with a service that never fabricates the wallet's own
insufficient-funds error) fails with the insufficient-funds error exactly
when the requested value exceeds `current_note.value`, and in that case
the spendables are unchanged. -/
theorem split_insufficient_funds_iff {F P S : Type} [CommRing F] [DecidableEq F]
    (env : Env F P S) (s : List (NoteHistory F P)) (i v : Nat) (r : Contact F)
    (b0 b1 : F) (nh : NoteHistory F P) (hget : s.get? i = some nh)
    (hsend : ∀ x, env.send x ≠ Except.error (Error.With "insufficient funds")) :
    (nh.current_note.value < v →
        Wallet.split env s i v (Except.ok r) b0 b1 =
          Outcome.cont (Except.error (Error.With "insufficient funds")) s)
    ∧ ∀ s₁, Wallet.split env s i v (Except.ok r) b0 b1 =
          Outcome.cont (Except.error (Error.With "insufficient funds")) s₁ →
        nh.current_note.value < v ∧ s₁ = s := by
  constructor
  · intro hlt
    simp only [Wallet.split, hget]
    rw [if_neg (by omega)]
  · intro s₁ hres
    by_cases hle : v ≤ nh.current_note.value
    · exfalso
      simp only [Wallet.split, hget] at hres
      rw [if_pos hle] at hres
      split at hres
      · simp at hres
      · split at hres
        · simp at hres
        · split at hres
          · rename_i e heq
            rw [Outcome.cont.injEq] at hres
            obtain ⟨he, -⟩ := hres
            rw [Except.error.injEq] at he
            exact hsend _ (he ▸ heq)
          · simp at hres
    · simp only [Wallet.split, hget] at hres
      rw [if_neg hle] at hres
      rw [Outcome.cont.injEq] at hres
      obtain ⟨-, hs⟩ := hres
      exact ⟨by omega, hs.symm⟩

/-- Witness for the C7 theorem: splitting value 200 from `nhC` (value 100)
fails with the insufficient-funds error and leaves the spendables
unchanged. -/
theorem split_insufficient_funds_iff_witness :
    Wallet.split envC [nhC] 0 200 (Except.ok rC) 20 21
      = Outcome.cont (Except.error (Error.With "insufficient funds")) [nhC] :=
  (split_insufficient_funds_iff envC [nhC] 0 200 rC 20 21 nhC rfl
      (fun x h => by simp [envC] at h)).1 (by decide)

/-- C8: duplicate incoming histories (same `current_note` as some
spendable) are a silent success leaving the spendables unchanged, and a
second `verify_incoming` of the same history after a successful first one
changes nothing: the history is added at most once. -/
theorem verify_incoming_dedup_idempotent {F P S : Type} [CommRing F]
    [DecidableEq F] [DecidableEq P] (env : Env F P S)
    (s : List (NoteHistory F P)) (nh : NoteHistory F P) :
    ((∃ x ∈ s, x.current_note = nh.current_note) →
        Wallet.verify_incoming env s nh = Outcome.cont (Except.ok ()) s)
    ∧ ∀ s₁, Wallet.verify_incoming env s nh = Outcome.cont (Except.ok ()) s₁ →
        Wallet.verify_incoming env s₁ nh = Outcome.cont (Except.ok ()) s₁ := by
  have hdedup : ∀ t : List (NoteHistory F P),
      (∃ x ∈ t, x.current_note = nh.current_note) →
      Wallet.verify_incoming env t nh = Outcome.cont (Except.ok ()) t := by
    intro t ht
    have hany : t.any (fun x => x.current_note == nh.current_note) = true := by
      rw [List.any_eq_true]
      obtain ⟨x, hx, he⟩ := ht
      exact ⟨x, hx, by simp [he]⟩
    simp [Wallet.verify_incoming, hany]
  refine ⟨hdedup s, ?_⟩
  intro s₁ h₁
  by_cases hc : s.any (fun x => x.current_note == nh.current_note) = true
  · obtain ⟨x, hx, hbe⟩ := List.any_eq_true.mp hc
    have hex : ∃ x ∈ s, x.current_note = nh.current_note :=
      ⟨x, hx, by simpa using hbe⟩
    have h2 := hdedup s hex
    rw [h2, Outcome.cont.injEq] at h₁
    obtain ⟨-, hs⟩ := h₁
    rw [← hs]
    exact h2
  · have hc' : s.any (fun x => x.current_note == nh.current_note) = false :=
      Bool.not_eq_true _ ▸ hc
    simp only [Wallet.verify_incoming, hc'] at h₁
    rw [if_neg Bool.false_ne_true] at h₁
    split at h₁
    · simp at h₁
    · simp at h₁
    · rw [Outcome.cont.injEq] at h₁
      obtain ⟨-, hs⟩ := h₁
      rw [← hs]
      exact hdedup (s ++ [nh]) ⟨nh, by simp, rfl⟩

/-- Witness for the C8 theorem: the idempotence branch applied after the
accepting run on the empty wallet, and the dedup branch applied with
`nhC` present in a two-element spendables list. -/
theorem verify_incoming_dedup_idempotent_witness :
    Wallet.verify_incoming envC [nhC] nhC = Outcome.cont (Except.ok ()) [nhC]
    ∧ Wallet.verify_incoming envC [nhIssueC, nhC] nhC
        = Outcome.cont (Except.ok ()) [nhIssueC, nhC] :=
  ⟨(verify_incoming_dedup_idempotent envC [] nhC).2 [nhC] (by decide),
   (verify_incoming_dedup_idempotent envC [nhIssueC, nhC] nhC).1
      ⟨nhC, by simp, rfl⟩⟩

/-- C10: a successful `Wallet::split` at spendable index `i` leaves the
number of spendables and every other index unchanged, and replaces the
spendable at `i` by the kept history: the same asset, exactly one step
appended, `current_note = note_out_0` and
`sibling = blind_note_hash(note_out_1)`. -/
theorem split_success_updates_index {F P S : Type} [CommRing F] [DecidableEq F]
    (env : Env F P S) (s : List (NoteHistory F P)) (i v : Nat) (r : Contact F)
    (b0 b1 : F) (nh : NoteHistory F P) (hget : s.get? i = some nh)
    (info : SplitInfo F P S) (s₁ : List (NoteHistory F P))
    (hok : Wallet.split env s i v (Except.ok r) b0 b1
        = Outcome.cont (Except.ok info) s₁) :
    s₁.length = s.length
    ∧ (∀ j, j ≠ i → s₁.get? j = s.get? j)
    ∧ ∃ st : IVCStep F P,
        s₁.get? i =
          some { asset := nh.asset, steps := nh.steps ++ [st],
                 current_note := info.note_out_0,
                 sibling := (env.h.noteHashes info.note_out_1).2 } := by
  have hlt : i < s.length := by
    obtain ⟨hl, -⟩ := List.get?_eq_some.mp hget
    exact hl
  simp only [Wallet.split, hget] at hok
  by_cases hle : v ≤ nh.current_note.value
  · rw [if_pos hle] at hok
    split at hok
    · simp at hok
    · split at hok
      · simp at hok
      · split at hok
        · simp at hok
        · rw [Outcome.cont.injEq] at hok
          obtain ⟨hinfo, hs⟩ := hok
          rw [Except.ok.injEq] at hinfo
          subst hinfo
          subst hs
          refine ⟨List.length_set _ _ _, ?_, ?_⟩
          · intro j hj
            exact List.get?_set_ne _ _ (Ne.symm hj)
          · exact ⟨_, by rw [List.get?_set_eq_of_lt _ hlt]⟩
  · rw [if_neg hle] at hok
    simp at hok

/-- Witness for the C10 theorem: the concrete successful split run
`splitResC`, whose resulting spendables are `splitStateC`. -/
theorem split_success_updates_index_witness :
    splitStateC.length = [nhC].length
    ∧ splitStateC.get? 5 = [nhC].get? 5 :=
  ⟨(split_success_updates_index envC [nhC] 0 40 rC 20 21 nhC rfl splitInfoC
      splitStateC rfl).1,
   (split_success_updates_index envC [nhC] 0 40 rC 20 21 nhC rfl splitInfoC
      splitStateC rfl).2.1 5 (by decide)⟩
